import Mathlib

/-
Shallow embedding of src/streamlit_app.py, function process_uploaded_file
(lines 21 to 123) together with the row helper valor_liquido defined inside
it (lines 96 to 101).  Python and pandas primitives are modelled at the
depth the code exercises; each definition notes the source lines it embeds.
Strings are handled through explicit structural functions on lists of
characters so that every definition reduces inside the kernel.
-/

namespace AbaSales

/-- Decidable equality for the error monad used by the embedding. -/
instance {ε α : Type} [DecidableEq ε] [DecidableEq α] : DecidableEq (Except ε α)
  | .error a, .error b =>
    if h : a = b then isTrue (by rw [h]) else isFalse (by intro hh; injection hh; contradiction)
  | .error _, .ok _ => isFalse (by intro h; cases h)
  | .ok _, .error _ => isFalse (by intro h; cases h)
  | .ok a, .ok b =>
    if h : a = b then isTrue (by rw [h]) else isFalse (by intro hh; injection hh; contradiction)

/-! ## Python string primitives (modelled structurally) -/

/-- Test that the second character list is a prefix of the first, modelling
the Python method str.startswith for the prefixes used by the code. -/
def startsWithL : List Char → List Char → Bool
  | _, [] => true
  | [], _ :: _ => false
  | c :: cs, p :: ps => (c == p) && startsWithL cs ps

/-- Substring test, modelling the Python operator in on strings and the
pandas filter calls with literal regex or like patterns (re.search of a
literal pattern is a substring test). -/
def containsL : List Char → List Char → Bool
  | [], pat => pat.isEmpty
  | c :: cs, pat => startsWithL (c :: cs) pat || containsL cs pat

/-- Whitespace characters recognised by the Python method str.strip. -/
def isPyWS (c : Char) : Bool :=
  c == ' ' || c == '\t' || c == '\n' || c == '\r' || c == '\x0b' || c == '\x0c'

/-- Strip leading and trailing whitespace, modelling str.strip(). -/
def trimL (l : List Char) : List Char :=
  ((l.dropWhile isPyWS).reverse.dropWhile isPyWS).reverse

/-- Prepend a character onto the first chunk of a split result. -/
def consHead (c : Char) : List (List Char) → List (List Char)
  | [] => [[c]]
  | h :: t => (c :: h) :: t

/-- Split a character list on a single separator character, modelling the
Python method str.split with a one character separator (no collapsing,
empty chunks preserved). -/
def splitCh (sep : Char) : List Char → List (List Char)
  | [] => [[]]
  | c :: rest => if c == sep then [] :: splitCh sep rest else consHead c (splitCh sep rest)

/-- Split on the literal two character sequence backslash followed by n.
Source line 27 writes content.split with the Python literal containing a
backslash and the letter n, so the split separator really is this two
character sequence and not the newline character. -/
def splitBN : List Char → List (List Char)
  | [] => [[]]
  | '\\' :: 'n' :: rest => [] :: splitBN rest
  | c :: rest => consHead c (splitBN rest)

/-- Join character lists with the literal two character backslash n
separator, modelling source line 29. -/
def joinBN (ls : List (List Char)) : List Char :=
  List.intercalate ['\\', 'n'] ls

/-- String wrapper for startsWithL. -/
def sStartsWith (s pat : String) : Bool := startsWithL s.data pat.data

/-- String wrapper for containsL. -/
def sContains (s pat : String) : Bool := containsL s.data pat.data

/-- String wrapper for trimL, modelling str.strip(). -/
def sTrim (s : String) : String := ⟨trimL s.data⟩

/-- Uppercase a string, modelling str.upper() on the ASCII range used by
document codes; characters outside the ASCII letters are kept unchanged. -/
def sUpper (s : String) : String := ⟨s.data.map Char.toUpper⟩

/-- Remove every occurrence of one character, modelling str.replace with an
empty replacement for a one character pattern. -/
def sRemoveChar (s : String) (c : Char) : String :=
  ⟨s.data.filter (fun a => a != c)⟩

/-- Replace every occurrence of one character by another, modelling
str.replace for one character pattern and replacement. -/
def sMapChar (s : String) (a b : Char) : String :=
  ⟨s.data.map (fun c => if c == a then b else c)⟩

/-! ## The pandas table model -/

/-- One table cell: none models the pandas missing value NaN, produced by
an empty field of the parsed csv text. -/
abbrev Cell := Option String

/-- Convert a raw parsed field to a cell: pandas turns an empty field into
the missing value. -/
def toCell (s : String) : Cell := if s = "" then none else some s

/-- A parsed data frame: a header of column names and rows of cells.  Rows
produced by readCsv always have the same length as the header. -/
structure Df where
  header : List String
  rows : List (List Cell)
deriving DecidableEq

/-- Field splitter for one physical csv line honouring the double quote
character, modelling the python engine of pandas read_csv at the depth the
code exercises: a quote opens a quoted section only at the start of a
field, a doubled quote inside a quoted section is a literal quote, and the
separator is literal inside a quoted section. -/
def parseLineAux (sep : Char) : List Char → Bool → List Char → List (List Char)
  | [], _, cur => [cur.reverse]
  | '"' :: '"' :: rest, true, cur => parseLineAux sep rest true ('"' :: cur)
  | '"' :: rest, true, cur => parseLineAux sep rest false cur
  | c :: rest, true, cur => parseLineAux sep rest true (c :: cur)
  | c :: rest, false, cur =>
    if c == sep then cur.reverse :: parseLineAux sep rest false []
    else if c == '"' && cur.isEmpty then parseLineAux sep rest true cur
    else parseLineAux sep rest false (c :: cur)

/-- Split one physical line into fields. -/
def parseLine (sep : Char) (l : List Char) : List String :=
  (parseLineAux sep l false []).map String.mk

/-- Error raised by the modelled pandas read_csv: with no nonempty physical
line pandas raises EmptyDataError, which the bare except of the source
loop at lines 32 to 44 treats as a failed trial parse. -/
inductive CsvErr
  | emptyData
deriving DecidableEq

/-- Model of pandas read_csv with the python engine, a given separator,
double quote character and on_bad_lines skip, at the depth the source
exercises (source lines 34 to 41): physical lines are the real newline
splits of the text, empty lines are skipped, the first remaining line is
the header, rows with more fields than the header are skipped as bad
lines, shorter rows are padded with missing values.  Column name mangling
for duplicate headers and index column inference are not modelled; no
claim depends on them. -/
def readCsv (sep : Char) (content : String) : Except CsvErr Df :=
  match (splitCh '\n' content.data).filter (fun l => !l.isEmpty) with
  | [] => .error .emptyData
  | h :: rest =>
    let header := parseLine sep h
    let n := header.length
    let rows := rest.filterMap (fun l =>
      let fs := parseLine sep l
      if n < fs.length then none
      else some (fs.map toCell ++ List.replicate (n - fs.length) none))
    .ok ⟨header, rows⟩

/-! ## Dates (source line 53) -/

/-- A calendar date as parsed by pandas to_datetime with the fixed format
day dash month dash four digit year. -/
structure SDate where
  day : Nat
  month : Nat
  year : Nat
deriving DecidableEq

/-- Numeric value of a digit string. -/
def natOfDigits (s : String) : Nat :=
  s.data.foldl (fun n c => n * 10 + (c.toNat - 48)) 0

/-- Nonempty and all characters decimal digits. -/
def allDigits (s : String) : Bool :=
  !s.data.isEmpty && s.data.all Char.isDigit

/-- Leap year rule of the proleptic Gregorian calendar used by datetime. -/
def isLeap (y : Nat) : Bool :=
  (y % 4 == 0 && y % 100 != 0) || y % 400 == 0

/-- Number of days of a month. -/
def daysInMonth (m y : Nat) : Nat :=
  if m == 2 then (if isLeap y then 29 else 28)
  else if m == 4 || m == 6 || m == 9 || m == 11 then 30
  else 31

/-- Parse a date string under the strptime pattern of source line 53: day
dash month dash year, day and month one or two digits, year up to four
digits, with real calendar validation; failure models the NaT produced by
errors coerce. -/
def parseDateStr (s : String) : Option SDate :=
  match (splitCh '-' s.data).map String.mk with
  | [d, m, y] =>
    if allDigits d && allDigits m && allDigits y
        && d.data.length ≤ 2 && m.data.length ≤ 2 && y.data.length ≤ 4 then
      let dn := natOfDigits d
      let mn := natOfDigits m
      let yn := natOfDigits y
      if 1 ≤ mn && mn ≤ 12 && 1 ≤ dn && dn ≤ daysInMonth mn yn && 1 ≤ yn
      then some ⟨dn, mn, yn⟩ else none
    else none
  | _ => none

/-- Date of a cell: a missing cell gives NaT. -/
def parseDateCell (c : Cell) : Option SDate := c.bind parseDateStr

/-! ## Amounts (source lines 66 to 72) -/

/-- Exact decimal number: integer mantissa over a power of ten.  The source
works with float64 values produced by pd.to_numeric; the only arithmetic it
performs on them is negation and comparison with zero, which the exact
decimal models faithfully. -/
structure Dec where
  num : Int
  exp : Nat
deriving DecidableEq

/-- Rational value of an exact decimal. -/
def Dec.val (d : Dec) : ℚ := (d.num : ℚ) / (10 : ℚ) ^ d.exp

/-- String seen by the numeric parser for a cell: pandas astype(str) turns
the missing value into the three letter string nan, which then fails the
numeric parse exactly as the missing value propagates in the source. -/
def amountStr (c : Cell) : String :=
  match c with
  | none => "nan"
  | some s => s

/-- Cleaning chain of source lines 68 to 70: replace comma by period, drop
the euro sign, drop spaces. -/
def cleanAmount (s : String) : String :=
  sRemoveChar (sRemoveChar (sMapChar s ',' '.') '€') ' '

/-- Numeric parse modelling pd.to_numeric with errors coerce on the cleaned
string: an optional sign, digits with at most one period and at least one
digit.  Exponent notation and the words nan and inf are treated as a
failed parse; the source never meets them on this data. -/
def parseFloatD (s : String) : Option Dec :=
  let neg := sStartsWith s "-"
  let body : List Char := if neg || sStartsWith s "+" then s.data.drop 1 else s.data
  let sg : Int := if neg then -1 else 1
  match (splitCh '.' body).map String.mk with
  | [ip] =>
    if allDigits ip then some ⟨sg * (natOfDigits ip : Int), 0⟩ else none
  | [ip, fp] =>
    if ip.data.all Char.isDigit && fp.data.all Char.isDigit
        && (!ip.data.isEmpty || !fp.data.isEmpty)
    then some ⟨sg * ((natOfDigits ip * 10 ^ fp.data.length + natOfDigits fp : Nat) : Int),
               fp.data.length⟩
    else none
  | _ => none

/-! ## Column resolution (source lines 50 to 93 and 109) -/

/-- Header cleaning of source line 50: strip whitespace then remove double
quote characters. -/
def cleanHeader (h : String) : String := sRemoveChar (sTrim h) '"'

/-- Clean every column name. -/
def cleanHeaders (hs : List String) : List String := hs.map cleanHeader

/-- Exact label looked up first for the amount column (source line 56). -/
def exactValorLabel : String := "Valor [Documentos GC Lin]"

/-- Amount column resolution of source lines 56 to 61: the exact label, and
otherwise the first column whose name contains Valor. -/
def valorIdx (hs : List String) : Option Nat :=
  match hs.findIdx? (fun c => c = exactValorLabel) with
  | some i => some i
  | none => hs.findIdx? (fun c => sContains c "Valor")

/-- Date column of source line 53: the column named Data, and otherwise
column zero. -/
def dataIdx (hs : List String) : Nat :=
  (hs.findIdx? (fun c => c = "Data")).getD 0

/-- Family column of source line 74: first column whose name contains the
word Família; with no match the source raises IndexError. -/
def famIdx (hs : List String) : Option Nat :=
  hs.findIdx? (fun c => sContains c "Família")

/-- Document column of source lines 77 to 84: the exact name Doc. first,
then the first column containing Doc or Document. -/
def docIdx (hs : List String) : Option Nat :=
  match hs.findIdx? (fun c => c = "Doc.") with
  | some i => some i
  | none => hs.findIdx? (fun c => sContains c "Doc" || sContains c "Document")

/-- Salesperson column of source line 92; with no match the source raises
IndexError. -/
def vendIdx (hs : List String) : Option Nat :=
  hs.findIdx? (fun c => sContains c "Vendedor")

/-- Customer column of source line 93; with no match the source raises
IndexError. -/
def cliIdx (hs : List String) : Option Nat :=
  hs.findIdx? (fun c => sContains c "Nome" || sContains c "Cliente")

/-- Cancellation column of source line 109: first column whose name
contains the word anulação, or absent. -/
def anulIdx (hs : List String) : Option Nat :=
  hs.findIdx? (fun c => sContains c "anulação")

/-- Resolved physical column indices for one file. -/
structure ColIdxs where
  dataCol : Nat
  valorCol : Nat
  famCol : Nat
  docCol : Nat
  vendCol : Nat
  cliCol : Nat
  anulCol : Option Nat
deriving DecidableEq

/-- Failure modes of the processing body.  valorColMissing models the
explicit empty return of source lines 62 to 64, pyException models any
Python exception caught by the handler of lines 120 to 122 (IndexError
from an empty column filter at lines 74, 92, 93, AttributeError from
line 89), and formatNotRecognized models the explicit empty return of
lines 45 to 47. -/
inductive PErr
  | formatNotRecognized
  | valorColMissing
  | pyException
deriving DecidableEq

/-- Column resolution in source order: amount first (explicit error),
then family, document, salesperson and customer, each raising when no
column matches. -/
def resolveIdxs (hs : List String) : Except PErr ColIdxs :=
  match valorIdx hs with
  | none => .error .valorColMissing
  | some v =>
    match famIdx hs with
    | none => .error .pyException
    | some f =>
      match docIdx hs with
      | none => .error .pyException
      | some d =>
        match vendIdx hs with
        | none => .error .pyException
        | some ve =>
          match cliIdx hs with
          | none => .error .pyException
          | some cl => .ok ⟨dataIdx hs, v, f, d, ve, cl, anulIdx hs⟩

/-! ## Row normalisation (source lines 53 to 115) -/

/-- Values derived for one row by the column assignments of source lines
53 to 103. -/
structure RowVals where
  date : Option SDate
  familia : String
  documento : String
  vendedor : String
  cliente : String
  bruta : Option Dec
  anulCell : Cell
deriving DecidableEq

/-- Cell of a row at a column index; a short row reads as missing. -/
def getCell (row : List Cell) (i : Nat) : Cell := row.getD i none

/-- Derive the row values: date parse of line 53, fillna defaults of lines
74, 87, 92 and 93, numeric parse of lines 66 to 72, and the raw
cancellation cell of line 111. -/
def mkRowVals (ix : ColIdxs) (row : List Cell) : RowVals :=
  { date := parseDateCell (getCell row ix.dataCol)
    familia := (getCell row ix.famCol).getD "SEM_FAMILIA"
    documento := (getCell row ix.docCol).getD ""
    vendedor := (getCell row ix.vendCol).getD "SEM_VENDEDOR"
    cliente := (getCell row ix.cliCol).getD "SEM_CLIENTE"
    bruta := parseFloatD (cleanAmount (amountStr (getCell row ix.valorCol)))
    anulCell := match ix.anulCol with
      | some i => getCell row i
      | none => none }

/-- Signed net amount of source lines 96 to 101: zero when the gross value
is missing or not positive, negated when the uppercased document string
contains NC, the gross value otherwise. -/
def valor_liquido (bruta : Option Dec) (documento : String) : Dec :=
  match bruta with
  | none => ⟨0, 0⟩
  | some v =>
    if v.num ≤ 0 then ⟨0, 0⟩
    else if sContains (sUpper documento) "NC" then ⟨-v.num, v.exp⟩
    else v

/-- Cancellation test of source line 111: present and different from the
empty string. -/
def cancelledCell (c : Cell) : Bool :=
  match c with
  | none => false
  | some v => v ≠ ""

/-- Cancellation test on derived row values. -/
def rvCancelled (rv : RowVals) : Bool := cancelledCell rv.anulCell

/-- One record of the output table of source line 118. -/
structure SaleRecord where
  data_venda : SDate
  familia : String
  documento : String
  vendedor : String
  cliente : String
  venda_liquida : Dec
deriving DecidableEq

/-- Output record of one kept row. -/
def rvRecord (rv : RowVals) : SaleRecord :=
  { data_venda := rv.date.getD ⟨0, 0, 0⟩
    familia := rv.familia
    documento := rv.documento
    vendedor := rv.vendedor
    cliente := rv.cliente
    venda_liquida := valor_liquido rv.bruta rv.documento }

/-- Output table of the processing body.  table models the selected frame
of source line 118, nAnuladas the count displayed at line 115 (zero when
the cancellation column is absent and the block of lines 110 to 115 does
not run). -/
structure ProcOut where
  table : List SaleRecord
  nAnuladas : Nat
deriving DecidableEq

/-- Row filtering of source lines 103 to 115: derive the row values, keep
rows with a parsed date (venda_liquida is never missing, so the dropna of
line 106 filters on the date only), then remove and count cancelled rows
when a cancellation column exists. -/
def tableOf (ix : ColIdxs) (rows : List (List Cell)) : ProcOut :=
  let dfClean := (rows.map (mkRowVals ix)).filter (fun rv => rv.date.isSome)
  match ix.anulCol with
  | none => ⟨dfClean.map rvRecord, 0⟩
  | some _ =>
    ⟨(dfClean.filter (fun rv => !rvCancelled rv)).map rvRecord,
     (dfClean.filter (fun rv => rvCancelled rv)).length⟩

/-- Processing body from the parsed frame onwards (source lines 50 to
118). -/
def innerProcessDf (df : Df) : Except PErr ProcOut :=
  match resolveIdxs (cleanHeaders df.header) with
  | .error e => .error e
  | .ok ix => .ok (tableOf ix df.rows)

/-! ## Sanitisation and delimiter trial (source lines 26 to 47) -/

/-- Line filtering of source line 28: the slice from index one drops the
first chunk unconditionally, then chunks that strip to empty or that start
with the token sep= are dropped. -/
def sanitizeLines (lines : List String) : List String :=
  (lines.drop 1).filter (fun l => sTrim l ≠ "" && !sStartsWith l "sep=")

/-- Text handed to the trial parses: split the decoded content on the
literal backslash n sequence (line 27), sanitize (line 28), join with the
same literal sequence (line 29). -/
def sanitizedCsv (content : String) : String :=
  ⟨joinBN ((sanitizeLines ((splitBN content.data).map String.mk)).map String.data)⟩

/-- Separator trial loop of source lines 32 to 44: comma first, then
semicolon, returning the first successful parse with its separator; none
models the else branch of lines 45 to 47. -/
def detectParse (csv : String) : Option (Char × Df) :=
  match readCsv ',' csv with
  | .ok df => some (',', df)
  | .error _ =>
    match readCsv ';' csv with
    | .ok df => some (';', df)
    | .error _ => none

/-- Full processing of decoded content (source lines 26 to 118), with
every failure as an explicit error value. -/
def processContent (content : String) : Except PErr ProcOut :=
  match detectParse (sanitizedCsv content) with
  | none => .error .formatNotRecognized
  | some pr => innerProcessDf pr.2

/-- Top level function of source lines 21 to 123: none models a missing
upload (line 23 guard, line 123), and every error of the body yields the
empty table exactly as the explicit empty returns and the exception
handler of lines 120 to 122 do.  Decoding is not modelled because latin1
decoding is total on bytes. -/
def process_uploaded_file : Option String → List SaleRecord
  | none => []
  | some content =>
    match processContent content with
    | .ok out => out.table
    | .error _ => []

/-! ## Spec side notions used to state the claims -/

/-- Modelled from the spec: the fixed debit and credit note code set of the
sign invariant. -/
def debitCreditCodes : List String :=
  ["NC", "NCA", "NCM", "NCS", "NFI", "QUE", "ND"]

/-- Modelled from the spec: case insensitive exact membership of a document
code in the debit and credit note set. -/
def isDebitCreditCode (s : String) : Bool :=
  debitCreditCodes.contains (sUpper s)

/-- Combined keep condition of the row filtering: date parsed and the row
not cancelled.  When no cancellation column exists the second conjunct is
vacuously true, so this single predicate characterises both branches of
tableOf. -/
def keptRV (rv : RowVals) : Bool := !rvCancelled rv && rv.date.isSome

/-! ## Concrete inputs used by counterexamples and witnesses -/

/-- Upload content whose single data row carries document code ND.  The
directive chunk is separated by the literal backslash n sequence so that
the split of source line 27 produces chunks, while the data row is behind
a real newline inside the second chunk, which the parse then sees as a
physical line. -/
def exInput1 : String :=
  "sep=,\\nData,Família [Artigos],Doc.,Vendedor,Nome [Clientes],Valor [Documentos GC Lin]\n01-03-2024,ELET,ND,Ana,Joao,10"

/-- Record produced for exInput1. -/
def exRecord1 : SaleRecord := ⟨⟨1, 3, 2024⟩, "ELET", "ND", "Ana", "Joao", ⟨10, 0⟩⟩

/-- Upload content whose single data row carries document code NC. -/
def exInput2 : String :=
  "sep=,\\nData,Família [Artigos],Doc.,Vendedor,Nome [Clientes],Valor [Documentos GC Lin]\n02-03-2024,ELET,NC,Rui,Maria,20"

/-- Record produced for exInput2. -/
def exRecord2 : SaleRecord := ⟨⟨2, 3, 2024⟩, "ELET", "NC", "Rui", "Maria", ⟨-20, 0⟩⟩

/-- Parsed frame with one row whose amount cell is the string 0,00 and
whose date is valid. -/
def dfC2 : Df :=
  ⟨["Data", "Família [Artigos]", "Doc.", "Vendedor", "Nome [Clientes]", "Valor [Documentos GC Lin]"],
   [[some "01-03-2024", some "ELET", some "FT", some "Ana", some "Joao", some "0,00"]]⟩

/-- The single row of dfC2. -/
def rowC2 : List Cell :=
  [some "01-03-2024", some "ELET", some "FT", some "Ana", some "Joao", some "0,00"]

/-- Column indices resolved for dfC2. -/
def ixC2 : ColIdxs := ⟨0, 5, 1, 2, 3, 4, none⟩

/-- Record the code produces for the 0,00 row of dfC2. -/
def recC2 : SaleRecord := ⟨⟨1, 3, 2024⟩, "ELET", "FT", "Ana", "Joao", ⟨0, 0⟩⟩

/-- Upload content beginning with a semicolon directive line followed by
real newline separated semicolon data. -/
def contentC3 : String := "sep=;\nData;Valor [Documentos GC Lin]\n01-03-2024;10"

/-- Parsed frame whose header has no column containing Valor. -/
def dfC5 : Df := ⟨["Data", "Cliente"], [[some "01-01-2024", some "Z"]]⟩

/-- Upload content that parses to dfC5. -/
def contentC5 : String := "x\\nData,Cliente\n01-01-2024,Z"

/-- Frame with a cancellation column whose single cancelled row has an
invalid date (month thirteen). -/
def dfC6 : Df :=
  ⟨["Data", "Família [Artigos]", "Doc.", "Vendedor", "Nome [Clientes]", "Valor [Documentos GC Lin]", "Motivo de anulação do documento"],
   [[some "31-13-2024", some "ELET", some "FT", some "Ana", some "Joao", some "10", some "ANULADO"]]⟩

/-- Frame with a cancellation column, one cancelled row with a valid date
and one kept row. -/
def dfC6b : Df :=
  ⟨["Data", "Família [Artigos]", "Doc.", "Vendedor", "Nome [Clientes]", "Valor [Documentos GC Lin]", "Motivo de anulação do documento"],
   [[some "01-03-2024", some "ELET", some "FT", some "Ana", some "Joao", some "10", some "ANULADO"],
    [some "02-03-2024", some "ELET", some "FT", some "Ana", some "Joao", some "20", none]]⟩

/-- Column indices resolved for dfC6b. -/
def ixC6b : ColIdxs := ⟨0, 5, 1, 2, 3, 4, some 6⟩

/-- Record kept from dfC6b. -/
def recC6b : SaleRecord := ⟨⟨2, 3, 2024⟩, "ELET", "FT", "Ana", "Joao", ⟨20, 0⟩⟩

/-- Frame lacking every optional column except the document code, with a
row that would otherwise be fully valid. -/
def dfC7 : Df := ⟨["Data", "Valor [Documentos GC Lin]"], [[some "01-03-2024", some "10"]]⟩

/-- Upload content that parses to dfC7. -/
def contentC7 : String := "x\\nData,Valor [Documentos GC Lin]\n01-03-2024,10"

/-! ## Helper lemmas -/

/-- Negativity of an exact decimal value is negativity of its mantissa. -/
theorem Dec.val_neg_iff (x : Dec) : x.val < 0 ↔ x.num < 0 := by
  unfold Dec.val
  constructor
  · intro h
    by_contra hn
    push_neg at hn
    exact absurd h (not_lt.mpr (div_nonneg (by exact_mod_cast hn) (by positivity)))
  · intro h
    exact div_neg_of_neg_of_pos (by exact_mod_cast h) (by positivity)

/-- Vanishing of an exact decimal value is vanishing of its mantissa. -/
theorem Dec.val_eq_zero_iff (x : Dec) : x.val = 0 ↔ x.num = 0 := by
  unfold Dec.val
  rw [div_eq_zero_iff]
  constructor
  · rintro (h | h)
    · exact_mod_cast h
    · exact absurd h (by positivity)
  · intro h
    exact Or.inl (by exact_mod_cast h)

/-- Sign characterisation of the net amount: it is negative exactly when
the uppercased document string contains NC and the net amount is nonzero
(the zero case covers a missing or nonpositive gross value). -/
theorem valor_liquido_neg_iff (b : Option Dec) (d : String) :
    (valor_liquido b d).val < 0 ↔
      (sContains (sUpper d) "NC" = true ∧ (valor_liquido b d).val ≠ 0) := by
  cases b with
  | none =>
    have h0 : valor_liquido none d = ⟨0, 0⟩ := rfl
    rw [h0, Dec.val_neg_iff, Ne, Dec.val_eq_zero_iff]
    simp
  | some v =>
    have hv2 : valor_liquido (some v) d =
        if v.num ≤ 0 then ⟨0, 0⟩
        else if sContains (sUpper d) "NC" = true then ⟨-v.num, v.exp⟩ else v := rfl
    rw [hv2]
    by_cases hv : v.num ≤ 0
    · rw [if_pos hv, Dec.val_neg_iff, Ne, Dec.val_eq_zero_iff]
      simp
    · rw [if_neg hv]
      by_cases hc : sContains (sUpper d) "NC" = true
      · rw [if_pos hc, Dec.val_neg_iff, Ne, Dec.val_eq_zero_iff]
        simp only [hc, true_and]
        omega
      · rw [if_neg hc, Dec.val_neg_iff, Ne, Dec.val_eq_zero_iff]
        constructor
        · intro hlt
          omega
        · rintro ⟨hcc, _⟩
          exact absurd hcc hc

/-- Rows derived with no cancellation column are never cancelled. -/
theorem mkRowVals_anul_none {ix : ColIdxs} (h : ix.anulCol = none) (row : List Cell) :
    rvCancelled (mkRowVals ix row) = false := by
  simp [mkRowVals, rvCancelled, h, cancelledCell]

/-- The output table of the row filtering stage consists of the records of
exactly the derived rows with a parsed date that are not cancelled. -/
theorem tableOf_table (ix : ColIdxs) (rows : List (List Cell)) :
    (tableOf ix rows).table = ((rows.map (mkRowVals ix)).filter keptRV).map rvRecord := by
  unfold tableOf
  cases hanul : ix.anulCol with
  | none =>
    simp only []
    congr 1
    apply List.filter_congr
    intro rv hrv
    rw [List.mem_map] at hrv
    obtain ⟨row, _, hrow⟩ := hrv
    subst hrow
    rw [keptRV, mkRowVals_anul_none hanul]
    rfl
  | some i =>
    simp only []
    rw [List.filter_filter]
    rfl

/-- The diagnostic count of the row filtering stage is the number of
derived rows that are cancelled and carry a parsed date. -/
theorem tableOf_count (ix : ColIdxs) (rows : List (List Cell)) :
    (tableOf ix rows).nAnuladas =
      ((rows.map (mkRowVals ix)).filter (fun rv => rvCancelled rv && rv.date.isSome)).length := by
  unfold tableOf
  cases hanul : ix.anulCol with
  | none =>
    simp only []
    rw [show ((rows.map (mkRowVals ix)).filter (fun rv => rvCancelled rv && rv.date.isSome)) = []
      from ?_]
    · rfl
    · rw [List.filter_eq_nil_iff]
      intro rv hrv
      rw [List.mem_map] at hrv
      obtain ⟨row, _, hrow⟩ := hrv
      subst hrow
      rw [mkRowVals_anul_none hanul]
      simp
  | some i =>
    simp only []
    rw [List.filter_filter]

/-- Inversion of a successful processing body run. -/
theorem innerProcessDf_ok {df : Df} {out : ProcOut} (h : innerProcessDf df = .ok out) :
    ∃ ix, resolveIdxs (cleanHeaders df.header) = .ok ix ∧ out = tableOf ix df.rows := by
  unfold innerProcessDf at h
  cases hres : resolveIdxs (cleanHeaders df.header) with
  | error e => rw [hres] at h; cases h
  | ok ix =>
    rw [hres] at h
    refine ⟨ix, rfl, ?_⟩
    injection h with h
    exact h.symm

/-- Every record of the top level output arises from the row filtering
stage of some parsed frame. -/
theorem mem_process {inp : Option String} {r : SaleRecord}
    (h : r ∈ process_uploaded_file inp) :
    ∃ (df : Df) (ix : ColIdxs), resolveIdxs (cleanHeaders df.header) = .ok ix ∧
      r ∈ (tableOf ix df.rows).table := by
  cases inp with
  | none => cases h
  | some s =>
    cases hc : processContent s with
    | error e =>
      have hps : process_uploaded_file (some s) = [] := by
        show (match processContent s with
          | .ok out => out.table
          | .error _ => []) = []
        rw [hc]
      rw [hps] at h
      cases h
    | ok out =>
      have hps : process_uploaded_file (some s) = out.table := by
        show (match processContent s with
          | .ok out => out.table
          | .error _ => []) = out.table
        rw [hc]
      rw [hps] at h
      cases hd : detectParse (sanitizedCsv s) with
      | none =>
        have : processContent s = .error .formatNotRecognized := by
          unfold processContent
          rw [hd]
        rw [this] at hc
        cases hc
      | some pr =>
        have hinner : innerProcessDf pr.2 = .ok out := by
          have : processContent s = innerProcessDf pr.2 := by
            unfold processContent
            rw [hd]
          rw [← this]
          exact hc
        obtain ⟨ix, hres, hout⟩ := innerProcessDf_ok hinner
        exact ⟨pr.2, ix, hres, by rw [← hout]; exact h⟩

/-- With no occurrence of the literal backslash n sequence the split of
source line 27 returns the whole content as its only chunk. -/
theorem splitBN_eq_single (l : List Char) :
    containsL l ['\\', 'n'] = false → splitBN l = [l] := by
  induction l using splitBN.induct with
  | case1 => intro h; rfl
  | case2 rest ih =>
    intro h
    simp [containsL, startsWithL] at h
  | case3 c rest h1 ih =>
    intro h
    rw [containsL, Bool.or_eq_false_iff] at h
    rw [splitBN.eq_3 c rest h1, ih h.2]
    rfl

/-- Failure of the comma trial parse forces failure of the semicolon
trial parse: the only modelled failure is the absence of nonempty
physical lines, which does not depend on the separator. -/
theorem readCsv_error_sep {csv : String} {e : CsvErr}
    (h : readCsv ',' csv = .error e) : readCsv ';' csv = .error e := by
  unfold readCsv at h ⊢
  cases hp : (splitCh '\n' csv.data).filter (fun l => !l.isEmpty) with
  | nil =>
    rw [hp] at h
  | cons hd tl =>
    rw [hp] at h
    exact Except.noConfusion h

/-! ## Claim theorems -/

/-- C1, counterexample: the claim states that net_amount is negative
exactly when the document code belongs, case insensitively and by exact
match, to the fixed set NC, NCA, NCM, NCS, NFI, QUE, ND.  The code instead
negates on a substring test for NC, so the accepted record with document
code ND, a member of the set, keeps a strictly positive net amount. -/
theorem C1_counterexample :
    process_uploaded_file (some exInput1) = [exRecord1] ∧
      isDebitCreditCode exRecord1.documento = true ∧
      ¬ exRecord1.venda_liquida.val < 0 := by
  refine ⟨by decide, by decide, ?_⟩
  rw [Dec.val_neg_iff]
  decide

/-- C1, amended: for every record accepted into the output table the net
amount is negative exactly when the uppercased document code contains NC
as a substring and the net amount is nonzero; the zero case arises from a
missing or nonpositive gross amount, which the code retains with net
amount zero instead of rejecting. -/
theorem C1_sign_amended (inp : Option String) (r : SaleRecord)
    (h : r ∈ process_uploaded_file inp) :
    r.venda_liquida.val < 0 ↔
      (sContains (sUpper r.documento) "NC" = true ∧ r.venda_liquida.val ≠ 0) := by
  obtain ⟨df, ix, hres, hmem⟩ := mem_process h
  rw [tableOf_table, List.mem_map] at hmem
  obtain ⟨rv, hrvmem, hrec⟩ := hmem
  subst hrec
  exact valor_liquido_neg_iff rv.bruta rv.documento

/-- C1, witness: the amended sign characterisation applied to the record
with document code NC produced from a concrete upload. -/
theorem C1_sign_amended_witness :
    exRecord2 ∈ process_uploaded_file (some exInput2) ∧
      (exRecord2.venda_liquida.val < 0 ↔
        (sContains (sUpper exRecord2.documento) "NC" = true ∧
          exRecord2.venda_liquida.val ≠ 0)) :=
  ⟨by decide, C1_sign_amended (some exInput2) exRecord2 (by decide)⟩

/-- C2, counterexample: the claim states that a row whose amount parses to
a value at most zero is rejected with no output record; the concrete frame
with amount cell 0,00 and a valid date produces an output record with net
amount zero, so the row is retained. -/
theorem C2_counterexample :
    parseFloatD (cleanAmount (amountStr (some "0,00"))) = some ⟨0, 2⟩ ∧
      innerProcessDf dfC2 = .ok ⟨[recC2], 0⟩ ∧
      recC2.venda_liquida = ⟨0, 0⟩ :=
  ⟨by decide, by decide, by decide⟩

/-- C2, amended: a row whose amount cell is unparseable or parses to a
value at most zero is not rejected on that account: whenever its date
parses and it is not cancelled, its record appears in the output table
with net amount zero. -/
theorem C2_nonpositive_retained (df : Df) (ix : ColIdxs) (out : ProcOut)
    (hres : resolveIdxs (cleanHeaders df.header) = .ok ix)
    (hout : innerProcessDf df = .ok out)
    (row : List Cell) (hrow : row ∈ df.rows)
    (hdate : (mkRowVals ix row).date.isSome = true)
    (hcan : rvCancelled (mkRowVals ix row) = false)
    (hamt : (mkRowVals ix row).bruta.all (fun v => decide (v.num ≤ 0)) = true) :
    rvRecord (mkRowVals ix row) ∈ out.table ∧
      (rvRecord (mkRowVals ix row)).venda_liquida.val = 0 := by
  obtain ⟨ix2, hres2, hout2⟩ := innerProcessDf_ok hout
  rw [hres] at hres2
  injection hres2 with hres2
  subst hres2
  subst hout2
  constructor
  · rw [tableOf_table]
    apply List.mem_map_of_mem
    rw [List.mem_filter]
    refine ⟨List.mem_map_of_mem _ hrow, ?_⟩
    rw [keptRV, hcan, hdate]
    rfl
  · have hz : valor_liquido (mkRowVals ix row).bruta (mkRowVals ix row).documento = ⟨0, 0⟩ := by
      cases hb : (mkRowVals ix row).bruta with
      | none => rfl
      | some v =>
        rw [hb] at hamt
        have hv : v.num ≤ 0 := of_decide_eq_true hamt
        show (if v.num ≤ 0 then (⟨0, 0⟩ : Dec)
          else if sContains (sUpper (mkRowVals ix row).documento) "NC" = true
            then ⟨-v.num, v.exp⟩ else v) = ⟨0, 0⟩
        rw [if_pos hv]
    have he : (rvRecord (mkRowVals ix row)).venda_liquida =
        valor_liquido (mkRowVals ix row).bruta (mkRowVals ix row).documento := rfl
    rw [he, hz]
    exact (Dec.val_eq_zero_iff ⟨0, 0⟩).mpr rfl

/-- C2, witness: the amended retention statement applied to the concrete
frame whose single row has amount 0,00 and a valid date. -/
theorem C2_nonpositive_retained_witness :
    rvRecord (mkRowVals ixC2 rowC2) ∈ (⟨[recC2], 0⟩ : ProcOut).table ∧
      (rvRecord (mkRowVals ixC2 rowC2)).venda_liquida.val = 0 :=
  C2_nonpositive_retained dfC2 ixC2 ⟨[recC2], 0⟩ (by decide) (by decide) rowC2
    (by decide) (by decide) (by decide) (by decide)

/-- C3, counterexample: the claim states that an input beginning with a
semicolon directive line followed by semicolon delimited data is parsed
with the semicolon delimiter and the correct column count.  On the
concrete input of that shape the split on the literal backslash n
sequence leaves no data line at all, both trial parses fail, and the
pipeline returns the empty table without ever using the semicolon. -/
theorem C3_counterexample :
    sanitizedCsv contentC3 = "" ∧
      processContent contentC3 = .error .formatNotRecognized ∧
      process_uploaded_file (some contentC3) = [] :=
  ⟨by decide, by decide, by decide⟩

/-- C3, amended: the trial parse loop can only ever select the comma: the
comma parse fails exactly when the sanitized text has no nonempty physical
line, in which case the semicolon parse fails identically, so no input
makes the pipeline parse with the semicolon delimiter. -/
theorem C3_comma_only (csv : String) (pr : Char × Df)
    (h : detectParse csv = some pr) : pr.1 = ',' := by
  unfold detectParse at h
  cases h1 : readCsv ',' csv with
  | ok df =>
    rw [h1] at h
    injection h with h
    rw [← h]
  | error e =>
    rw [h1, readCsv_error_sep h1] at h
    exact Option.noConfusion h

/-- C3, witness: the amended statement applied to a one chunk input that
the comma trial parse accepts. -/
theorem C3_comma_only_witness :
    detectParse "a" = some (',', ⟨["a"], []⟩) ∧
      (Prod.fst (',', (⟨["a"], []⟩ : Df))) = ',' :=
  ⟨by decide, C3_comma_only "a" (',', ⟨["a"], []⟩) (by decide)⟩

/-- C4, counterexample: the claim states that sanitization discards
exactly the directive lines and the blank lines and keeps the header
wherever it stands.  The slice of source line 28 drops the first line
unconditionally: on a file whose first line is the header itself, the
header is discarded although it is neither blank nor a directive. -/
theorem C4_counterexample :
    sanitizeLines ["Data,Valor", "1,2"] = ["1,2"] ∧
      sStartsWith "Data,Valor" "sep=" = false ∧
      sTrim "Data,Valor" ≠ "" ∧
      "Data,Valor" ∉ sanitizeLines ["Data,Valor", "1,2"] := by decide

/-- C4, amended: the first line is discarded unconditionally; among the
remaining lines, exactly those that strip to empty or start with the
token sep= are discarded, and every other remaining line is preserved in
order. -/
theorem C4_sanitization (lines : List String) :
    ((sanitizeLines lines).Sublist (lines.drop 1)) ∧
      (∀ l, l ∈ lines.drop 1 → sTrim l ≠ "" → sStartsWith l "sep=" = false →
        l ∈ sanitizeLines lines) ∧
      (∀ l, sStartsWith l "sep=" = true → l ∉ sanitizeLines lines) ∧
      (∀ l, sTrim l = "" → l ∉ sanitizeLines lines) := by
  refine ⟨List.filter_sublist _, ?_, ?_, ?_⟩
  · intro l hmem h1 h2
    unfold sanitizeLines
    rw [List.mem_filter]
    exact ⟨hmem, by simp [h1, h2]⟩
  · intro l h hmem
    unfold sanitizeLines at hmem
    rw [List.mem_filter] at hmem
    simp [h] at hmem
  · intro l h hmem
    unfold sanitizeLines at hmem
    rw [List.mem_filter] at hmem
    simp [h] at hmem

/-- C4, witness: a kept data line behind a directive line. -/
theorem C4_sanitization_witness : ("h1" : String) ∈ sanitizeLines ["sep=;", "h1"] :=
  (C4_sanitization ["sep=;", "h1"]).2.1 "h1" (by decide) (by decide) (by decide)

/-- C5, confirmed: when no cleaned column name equals the exact amount
label and none contains Valor, the processing body fails with the missing
amount column error, and a file parsing to such a frame contributes no
rows to the output. -/
theorem C5_required_amount (df : Df)
    (h : ∀ c ∈ cleanHeaders df.header, c ≠ exactValorLabel ∧ sContains c "Valor" = false) :
    innerProcessDf df = .error .valorColMissing ∧
      ∀ content pr, detectParse (sanitizedCsv content) = some pr → pr.2 = df →
        process_uploaded_file (some content) = [] := by
  have hval : valorIdx (cleanHeaders df.header) = none := by
    unfold valorIdx
    have h1 : (cleanHeaders df.header).findIdx? (fun c => c = exactValorLabel) = none := by
      rw [List.findIdx?_eq_none_iff]
      intro x hx
      simpa using (h x hx).1
    have h2 : (cleanHeaders df.header).findIdx? (fun c => sContains c "Valor") = none := by
      rw [List.findIdx?_eq_none_iff]
      intro x hx
      simpa using (h x hx).2
    rw [h1, h2]
  have herr : innerProcessDf df = .error .valorColMissing := by
    unfold innerProcessDf resolveIdxs
    rw [hval]
  refine ⟨herr, ?_⟩
  intro content pr hdet hdf
  have hpc : processContent content = .error .valorColMissing := by
    unfold processContent
    rw [hdet]
    show innerProcessDf pr.2 = .error .valorColMissing
    rw [hdf]
    exact herr
  show (match processContent content with
    | .ok out => out.table
    | .error _ => []) = []
  rw [hpc]

/-- C5, witness: the confirmed statement applied to a frame without any
amount column and to the concrete upload that parses to it. -/
theorem C5_required_amount_witness :
    innerProcessDf dfC5 = .error .valorColMissing ∧
      process_uploaded_file (some contentC5) = [] :=
  ⟨(C5_required_amount dfC5 (by decide)).1,
    (C5_required_amount dfC5 (by decide)).2 contentC5 (',', dfC5) (by decide) rfl⟩

/-- C6, counterexample: the claim states that every row with a non empty
cancellation value is rejected and counted in the cancellation
diagnostic.  The concrete cancelled row with an invalid date is indeed
excluded from the output but the diagnostic count stays zero, because the
count is taken after the date filter. -/
theorem C6_counterexample :
    cancelledCell (some "ANULADO") = true ∧
      anulIdx (cleanHeaders dfC6.header) = some 6 ∧
      innerProcessDf dfC6 = .ok ⟨[], 0⟩ :=
  ⟨by decide, by decide, by decide⟩

/-- C6, amended: every record of the output table arises from a derived
row that is not cancelled, so cancelled rows never contribute a record;
the cancellation diagnostic counts exactly the cancelled rows whose date
parsed, so cancelled rows failing the date parse are excluded without
entering the count. -/
theorem C6_cancellation (df : Df) (ix : ColIdxs) (out : ProcOut)
    (hres : resolveIdxs (cleanHeaders df.header) = .ok ix)
    (hout : innerProcessDf df = .ok out) :
    (∀ r ∈ out.table, ∃ rv, rv ∈ df.rows.map (mkRowVals ix) ∧ rvCancelled rv = false ∧
        rv.date.isSome = true ∧ r = rvRecord rv) ∧
      out.nAnuladas =
        ((df.rows.map (mkRowVals ix)).filter
          (fun rv => rvCancelled rv && rv.date.isSome)).length := by
  obtain ⟨ix2, hres2, hout2⟩ := innerProcessDf_ok hout
  rw [hres] at hres2
  injection hres2 with hres2
  subst hres2
  subst hout2
  constructor
  · intro r hr
    rw [tableOf_table, List.mem_map] at hr
    obtain ⟨rv, hrvmem, hrec⟩ := hr
    rw [List.mem_filter] at hrvmem
    obtain ⟨hmem, hkept⟩ := hrvmem
    rw [keptRV, Bool.and_eq_true] at hkept
    obtain ⟨hk1, hk2⟩ := hkept
    refine ⟨rv, hmem, ?_, hk2, hrec.symm⟩
    revert hk1
    cases rvCancelled rv <;> simp
  · rw [tableOf_count]

/-- C6, witness: the amended count statement applied to the frame with one
cancelled row with a valid date and one kept row. -/
theorem C6_cancellation_witness :
    (⟨[recC6b], 1⟩ : ProcOut).nAnuladas =
      ((dfC6b.rows.map (mkRowVals ixC6b)).filter
        (fun rv => rvCancelled rv && rv.date.isSome)).length :=
  (C6_cancellation dfC6b ixC6b ⟨[recC6b], 1⟩ (by decide) (by decide)).2

/-- C7, counterexample: the claim states that a file lacking an optional
column still succeeds with the placeholder value in every record.  On the
concrete frame lacking the family column the body raises the modelled
IndexError and the upload yields the empty table, not placeholder
records. -/
theorem C7_counterexample :
    innerProcessDf dfC7 = .error .pyException ∧
      process_uploaded_file (some contentC7) = [] :=
  ⟨by decide, by decide⟩

/-- C7, amended: when the amount column resolves but any of the optional
family, document, salesperson or customer columns has no match, the
processing body fails through the exception path and the file contributes
an empty table; the placeholder strings are applied only to empty cells
of present columns, never to absent columns. -/
theorem C7_optional_missing (df : Df)
    (hv : valorIdx (cleanHeaders df.header) ≠ none)
    (h : famIdx (cleanHeaders df.header) = none ∨ docIdx (cleanHeaders df.header) = none ∨
      vendIdx (cleanHeaders df.header) = none ∨ cliIdx (cleanHeaders df.header) = none) :
    innerProcessDf df = .error .pyException := by
  unfold innerProcessDf resolveIdxs
  cases hval : valorIdx (cleanHeaders df.header) with
  | none => exact absurd hval hv
  | some v =>
    cases hf : famIdx (cleanHeaders df.header) with
    | none => rfl
    | some f =>
      cases hdc : docIdx (cleanHeaders df.header) with
      | none => rfl
      | some dcol =>
        cases hvend : vendIdx (cleanHeaders df.header) with
        | none => rfl
        | some ve =>
          cases hcli : cliIdx (cleanHeaders df.header) with
          | none => rfl
          | some cl =>
            rcases h with h | h | h | h
            · rw [h] at hf
              exact Option.noConfusion hf
            · rw [h] at hdc
              exact Option.noConfusion hdc
            · rw [h] at hvend
              exact Option.noConfusion hvend
            · rw [h] at hcli
              exact Option.noConfusion hcli

/-- C7, witness: the amended statement applied to the frame lacking the
family column. -/
theorem C7_optional_missing_witness : innerProcessDf dfC7 = .error .pyException :=
  C7_optional_missing dfC7 (by decide) (Or.inl (by decide))

/-- C8, confirmed: the pipeline output is a function of the uploaded
bytes alone, so two runs on identical input yield identical output
tables.  The embedding is pure because the source computes the table from
the decoded content only; the caching decorator and the user interface
logging calls do not influence the returned frame. -/
theorem C8_idempotence (a b : Option String) (h : a = b) :
    process_uploaded_file a = process_uploaded_file b := by
  rw [h]

/-- C8, witness: two runs on the same concrete upload. -/
theorem C8_idempotence_witness :
    process_uploaded_file (some exInput1) = process_uploaded_file (some exInput1) :=
  C8_idempotence (some exInput1) (some exInput1) rfl

/-- C9, confirmed: the top level function is total: a missing upload
yields the empty table, every failure of the body yields the empty table
through the explicit returns and the exception handler, and every success
yields its table, so no exception ever reaches the caller. -/
theorem C9_totality :
    process_uploaded_file none = [] ∧
      (∀ s e, processContent s = .error e → process_uploaded_file (some s) = []) ∧
      (∀ s out, processContent s = .ok out → process_uploaded_file (some s) = out.table) := by
  refine ⟨rfl, ?_, ?_⟩
  · intro s e h
    show (match processContent s with
      | .ok out => out.table
      | .error _ => []) = []
    rw [h]
  · intro s out h
    show (match processContent s with
      | .ok out => out.table
      | .error _ => []) = out.table
    rw [h]

/-- C9, witness: the failure clause applied to the empty upload, whose
body fails with the format error. -/
theorem C9_totality_witness : process_uploaded_file (some "") = [] :=
  C9_totality.2.1 "" .formatNotRecognized (by decide)

/-- C10, confirmed: the split of source line 27 is on the literal two
character backslash n sequence, so content with real newlines and no such
sequence stays one chunk, the unconditional drop of the first chunk
leaves zero data lines, and the pipeline returns the empty table. -/
theorem C10_literal_split (content : String)
    (h1 : content.data.contains '\n' = true)
    (h2 : sContains content "\\n" = false) :
    ((splitBN content.data).map String.mk).drop 1 = [] ∧
      sanitizedCsv content = "" ∧
      process_uploaded_file (some content) = [] := by
  have h2x : containsL content.data ['\\', 'n'] = false := h2
  have hs : splitBN content.data = [content.data] := splitBN_eq_single _ h2x
  have hdrop : ((splitBN content.data).map String.mk).drop 1 = [] := by
    rw [hs]
    rfl
  have hcsv : sanitizedCsv content = "" := by
    unfold sanitizedCsv
    rw [hs]
    rfl
  have hdp : detectParse "" = none := by decide
  have hpc : processContent content = .error .formatNotRecognized := by
    unfold processContent
    rw [hcsv, hdp]
  have hpu : process_uploaded_file (some content) = [] := by
    show (match processContent content with
      | .ok out => out.table
      | .error _ => []) = []
    rw [hpc]
  exact ⟨hdrop, hcsv, hpu⟩

/-- C10, witness: a concrete content with real newlines and no literal
backslash n sequence. -/
theorem C10_literal_split_witness :
    process_uploaded_file (some "a\nb,c") = [] :=
  (C10_literal_split "a\nb,c" (by decide) (by decide)).2.2

end AbaSales
